import Mathlib

/-!
# Verification of the good-robot toy robot game

Shallow embedding of `src/good_robot.cxx` (the final C++ draft, whose line
numbers the claims cite): the `Direction` utilities, the `Table` and `Robot`
game objects with their constraint deciders, the process-wide constraint
registry (`Constraint.acceptable`), the robot operations
(`place`/`move`/`left`/`right`/`report`/`remove`), `Table::setTable`,
`RobotFactory::createRobot`, and the command dispatch of
`Interpreter::run` / `Broadcaster::broadcast` at the token level
(tokenising itself is external to the core; a missing token is the empty
string, as `Tokeniser::nextToken` returns at end of string).

Entity identity is positional: the table is `EntityId.tableId` and the i-th
constructed robot is `EntityId.robotId i`, mirroring C++ pointer identity
(`this == object`).
-/

namespace GoodRobot

/-- `enum Direction { Invalid, North, East, South, West }`. -/
inductive Direction where
  | Invalid
  | North
  | East
  | South
  | West
deriving DecidableEq, Repr

/-- `validDirection` from good_robot.cxx. -/
def validDirection (direction : Direction) : Bool :=
  direction == .North || direction == .West ||
  direction == .South || direction == .East

/-- `directionAsString` from good_robot.cxx. -/
def directionAsString (direction : Direction) : String :=
  if direction == .North then "North"
  else if direction == .West then "West"
  else if direction == .South then "South"
  else if direction == .East then "East"
  else "Invalid"

/-- `lowerCaseString` from good_robot.cxx (ASCII tolower, applied per char). -/
def lowerCaseString (s : String) : String :=
  String.mk (s.data.map Char.toLower)

/-- `directionFromString` from good_robot.cxx: case-insensitive full names or
single letters; anything else is `Invalid`. -/
def directionFromString (str : String) : Direction :=
  let lcString := lowerCaseString str
  if lcString == "n" || lcString == "north" then .North
  else if lcString == "w" || lcString == "west" then .West
  else if lcString == "s" || lcString == "south" then .South
  else if lcString == "e" || lcString == "east" then .East
  else .Invalid

/-- `atoi` as the C++ responders use it on a token: optional leading minus
sign then leading decimal digits; no digits (in particular the empty string,
which `Tokeniser::nextToken` yields for a missing token) gives 0. -/
def atoiDigits : List Char → Int → Int
  | [], acc => acc
  | c :: cs, acc =>
      if c.isDigit then atoiDigits cs (acc * 10 + (c.toNat - 48 : Nat)) else acc

def atoi (s : String) : Int :=
  match s.data with
  | '-' :: cs => - atoiDigits cs 0
  | cs => atoiDigits cs 0

/-- The mutable state of a `Robot` game object (`GameObject` data members). -/
structure Robot where
  name : String
  xpos : Int
  ypos : Int
  direction : Direction
  onTable : Bool
deriving DecidableEq, Repr

/-- The `GameObject` constructor's initial state: position (0,0) ("irrelevant
since not on table"), facing `Invalid`, off the table. -/
def mkRobot (name : String) : Robot :=
  { name := name, xpos := 0, ypos := 0, direction := .Invalid, onTable := false }

/-- The mutable bounds of the `Table` game object. -/
structure Table where
  xmin : Int
  ymin : Int
  xmax : Int
  ymax : Int
deriving DecidableEq, Repr

/-- Identity of a registered game object: the table, or the i-th constructed
robot (construction order; models C++ pointer identity). -/
inductive EntityId where
  | tableId
  | robotId (i : Nat)
deriving DecidableEq, Repr

/-- `Table::constraintDecider`: ok if it is the table itself, or the proposal
is not an on-table state, or the position is within the table boundaries. -/
def Table.constraintDecider (t : Table) (selfId objectId : EntityId)
    (xpos ypos : Int) (direction : Direction) (onTable : Bool) : Bool :=
  selfId == objectId || !onTable ||
    (decide (t.xmin ≤ xpos) && decide (xpos < t.xmax) &&
     decide (t.ymin ≤ ypos) && decide (ypos < t.ymax))

/-- `Robot::constraintDecider`: "If I'm being asked about myself then I don't
care. If I'm not on the table or it's not on the table then I don't care. If
I am on the table, then I only care about not being in the same place." -/
def Robot.constraintDecider (r : Robot) (selfId objectId : EntityId)
    (xpos ypos : Int) (direction : Direction) (onTable : Bool) : Bool :=
  selfId == objectId || !r.onTable || !onTable ||
    decide (r.xpos ≠ xpos) || decide (r.ypos ≠ ypos)

/-- The whole game state: the table and the robots in construction order
(which is both the `Broadcaster` listener order after the table, and the set
of registered `Constraint` voters), plus `RobotFactory::m_robots`, the
name-to-robot map (`std::map::insert` keeps the first entry for a name). -/
structure GameState where
  table : Table
  robots : List Robot
  names : List (String × Nat)
deriving DecidableEq, Repr

def defaultRobot : Robot := mkRobot ""

def GameState.getRobot (s : GameState) (i : Nat) : Robot :=
  s.robots.getD i defaultRobot

def GameState.setRobot (s : GameState) (i : Nat) (r : Robot) : GameState :=
  { s with robots := s.robots.set i r }

/-- Poll the robot voters from index `k` on (each robot registered exactly
one `Constraint` at construction): the conjunction of their deciders. -/
def robotsDecide : List Robot → Nat → EntityId → Int → Int → Direction → Bool → Bool
  | [], _, _, _, _, _, _ => true
  | r :: rest, k, objectId, x, y, d, b =>
      r.constraintDecider (.robotId k) objectId x y d b &&
      robotsDecide rest (k + 1) objectId x y d b

/-- `Constraint::acceptable`: false for an invalid direction, else the
conjunction of every registered constraint's verdict (the table's and every
robot's, the proposer's own decider included — it is the deciders themselves
that return true on their own proposals). -/
def Constraint.acceptable (s : GameState) (objectId : EntityId)
    (xpos ypos : Int) (direction : Direction) (onTable : Bool) : Bool :=
  validDirection direction &&
  s.table.constraintDecider .tableId objectId xpos ypos direction onTable &&
  robotsDecide s.robots 0 objectId xpos ypos direction onTable

/-- `Robot::place`: commit position, facing and on-table when the registry
accepts the proposal, else report and leave the state alone. -/
def placeRobot (s : GameState) (i : Nat) (xpos ypos : Int) (direction : Direction) :
    GameState × List String :=
  let r := s.getRobot i
  if Constraint.acceptable s (.robotId i) xpos ypos direction true then
    (s.setRobot i { r with xpos := xpos, ypos := ypos,
                           direction := direction, onTable := true }, [])
  else
    (s, ["Ignoring attempt to place robot " ++ r.name ++ " in invalid position"])

/-- The `switch (m_direction)` of `Robot::move` as a unit displacement:
North = (0,+1), West = (-1,0), South = (0,-1), East = (+1,0), Invalid = (0,0)
(the Invalid case only prints). -/
def displacement : Direction → Int × Int
  | .North => (0, 1)
  | .West => (-1, 0)
  | .South => (0, -1)
  | .East => (1, 0)
  | .Invalid => (0, 0)

/-- `Robot::move`: not-on-table message when off the table; else propose the
displaced position with the current facing and commit the coordinates exactly
when the registry accepts (an `Invalid` facing prints first and proposes the
unchanged coordinates, which the registry then refuses). -/
def moveRobot (s : GameState) (i : Nat) : GameState × List String :=
  let r := s.getRobot i
  if !r.onTable then
    (s, ["Robot " ++ r.name ++ " is not on the table"])
  else
    let newXpos := r.xpos + (displacement r.direction).1
    let newYpos := r.ypos + (displacement r.direction).2
    let invalidMsgs :=
      if r.direction == .Invalid then
        ["Attempt to move robot " ++ r.name ++ " without placing it first"]
      else []
    if Constraint.acceptable s (.robotId i) newXpos newYpos r.direction true then
      (s.setRobot i { r with xpos := newXpos, ypos := newYpos }, invalidMsgs)
    else
      (s, invalidMsgs ++
          ["Ignoring attempt to move robot " ++ r.name ++ " to invalid position"])

/-- The rotation chain of `Robot::left`. -/
def rotateLeft : Direction → Direction
  | .North => .West
  | .West => .South
  | .South => .East
  | .East => .North
  | .Invalid => .Invalid

/-- The rotation chain of `Robot::right`. -/
def rotateRight : Direction → Direction
  | .North => .East
  | .East => .South
  | .South => .West
  | .West => .North
  | .Invalid => .Invalid

/-- `Robot::left`: message when off the table, else rotate. -/
def leftRobot (s : GameState) (i : Nat) : GameState × List String :=
  let r := s.getRobot i
  if !r.onTable then (s, ["Robot " ++ r.name ++ " is not on the table"])
  else (s.setRobot i { r with direction := rotateLeft r.direction }, [])

/-- `Robot::right`: message when off the table, else rotate. -/
def rightRobot (s : GameState) (i : Nat) : GameState × List String :=
  let r := s.getRobot i
  if !r.onTable then (s, ["Robot " ++ r.name ++ " is not on the table"])
  else (s.setRobot i { r with direction := rotateRight r.direction }, [])

/-- `Robot::report`: pure query. -/
def reportRobot (s : GameState) (i : Nat) : GameState × List String :=
  let r := s.getRobot i
  if r.onTable then
    (s, ["Robot " ++ r.name ++ " is at x = " ++ toString r.xpos ++
         ", y = " ++ toString r.ypos ++ ", facing " ++ directionAsString r.direction])
  else
    (s, ["Robot " ++ r.name ++ " is not on the table"])

/-- `Robot::remove`: unconditionally off the table, facing reset to Invalid
("for good measure"); position is left as it was. -/
def removeRobot (s : GameState) (i : Nat) : GameState × List String :=
  let r := s.getRobot i
  (s.setRobot i { r with onTable := false, direction := .Invalid }, [])

/-- `Table::setTable` in the resize branch: unconditional assignment of the
four bounds (the C++ draft performs no validity check). -/
def setTable (s : GameState) (xmin ymin xmax ymax : Int) : GameState :=
  { s with table := { xmin := xmin, ymin := ymin, xmax := xmax, ymax := ymax } }

/-- `Table::report`. -/
def tableReportMsg (s : GameState) : List String :=
  ["Table limits are: [ ( " ++ toString s.table.xmin ++ ", " ++
   toString s.table.ymin ++ " ), ( " ++ toString s.table.xmax ++ ", " ++
   toString s.table.ymax ++ " ) ]"]

/-- `RobotFactory::createRobot`: always constructs a new `Robot` (which
registers itself as a command listener and as a constraint voter); the
name map's `insert` only takes effect when the name is not yet a key. -/
def createRobot (s : GameState) (robotName : String) : GameState :=
  { s with
    robots := s.robots ++ [mkRobot robotName],
    names :=
      if (s.names.lookup robotName).isSome then s.names
      else s.names ++ [(robotName, s.robots.length)] }

/-- `Robot::find`: the name map's entry, or none. -/
def findRobot (s : GameState) (robotName : String) : Option Nat :=
  s.names.lookup robotName

/-- The fixed verb vocabulary `main` installs in the `CommandFactory`;
a line whose verb is not one of these raises `InvalidCommandException`
and is dropped, so only these reach dispatch. -/
inductive Verb where
  | place
  | move
  | left
  | right
  | report
  | remove
  | table
  | create
  | help
  | quit
deriving DecidableEq, Repr

/-- A parsed command line as `CommandFactory::createCommand` produces it: an
optional `name:` target prefix, the (lower-cased, vocabulary-checked) verb,
and the rest of the line as argument tokens (tokenising on commas and
whitespace is external to the core; a missing token reads as `""`). -/
structure RawCmd where
  targetName : Option String
  verb : Verb
  args : List String
deriving DecidableEq, Repr

/-- `Robot::respond`: dispatch one verb to the robot's operation. The Bool
is true when the responder throws (`InvalidDirectionException` for a `place`
whose direction token does not resolve), aborting the broadcast; the
exception is caught and reported at the `Interpreter::run` loop. -/
def robotRespond (s : GameState) (i : Nat) (v : Verb) (args : List String) :
    GameState × List String × Bool :=
  match v with
  | .place =>
      let newDirectionToken := args.getD 2 ""
      let newDirection := directionFromString newDirectionToken
      if newDirection == .Invalid then
        (s, ["Invalid direction " ++ newDirectionToken ++ " for place"], true)
      else
        let res := placeRobot s i (atoi (args.getD 0 "")) (atoi (args.getD 1 "")) newDirection
        (res.1, res.2, false)
  | .move => let res := moveRobot s i; (res.1, res.2, false)
  | .left => let res := leftRobot s i; (res.1, res.2, false)
  | .right => let res := rightRobot s i; (res.1, res.2, false)
  | .report => let res := reportRobot s i; (res.1, res.2, false)
  | .remove => let res := removeRobot s i; (res.1, res.2, false)
  | _ => (s, [], false)

/-- `Table::respond`: the table answers only `report` and `table`; a `table`
command converts its four tokens with `atoi` (a missing token is `""`, which
`atoi` reads as 0) and calls `setTable`. -/
def tableRespond (s : GameState) (v : Verb) (args : List String) :
    GameState × List String :=
  match v with
  | .report => (s, tableReportMsg s)
  | .table =>
      (setTable s (atoi (args.getD 0 "")) (atoi (args.getD 1 ""))
                  (atoi (args.getD 2 "")) (atoi (args.getD 3 "")), [])
  | _ => (s, [])

/-- `Broadcaster::broadcast` over the robot listeners in registration order;
an exception thrown by a responder aborts the remaining deliveries. -/
def broadcastRobots (s : GameState) (idxs : List Nat) (v : Verb) (args : List String) :
    GameState × List String × Bool :=
  match idxs with
  | [] => (s, [], false)
  | i :: rest =>
      let r1 := robotRespond s i v args
      if r1.2.2 then (r1.1, r1.2.1, true)
      else
        let r2 := broadcastRobots r1.1 rest v args
        (r2.1, r1.2.1 ++ r2.2.1, r2.2.2)

/-- One iteration of `Interpreter::run` on an already-parsed line: `create`,
`help` and `quit` are handled in the loop itself; everything else is handed
to the `Broadcaster`, which delivers either to the one named robot or to
every listener (the table first — it was registered by the bootstrap before
any robot — then the robots in construction order). A `name:` prefix naming
no known robot makes the whole line an invalid command, dropped with a
report. Exceptions are caught at the loop, the command is dropped. -/
def applyCmd (s : GameState) (c : RawCmd) : GameState × List String :=
  match c.targetName with
  | some n =>
      match findRobot s n with
      | none => (s, ["Invalid command: " ++ n])
      | some i =>
          match c.verb with
          | .create => (createRobot s (c.args.getD 0 ""), [])
          | .help => (s, [])
          | .quit => (s, [])
          | v =>
              let r := robotRespond s i v c.args
              (r.1, r.2.1)
  | none =>
      match c.verb with
      | .create => (createRobot s (c.args.getD 0 ""), [])
      | .help => (s, [])
      | .quit => (s, [])
      | v =>
          let r1 := tableRespond s v c.args
          let r2 := broadcastRobots r1.1 (List.range r1.1.robots.length) v c.args
          (r2.1, r1.2 ++ r2.2.1)

/-- Run a whole command sequence, keeping only the state. -/
def runCmds (s : GameState) : List RawCmd → GameState
  | [] => s
  | c :: rest => runCmds (applyCmd s c).1 rest

/-- The process bootstrap of `main`: `Table::setTable(0, 0, 10, 10)` creates
the table, then robots "Robbie" and "Arthur" are created off the table. -/
def bootstrap : GameState :=
  createRobot (createRobot
    { table := { xmin := 0, ymin := 0, xmax := 10, ymax := 10 },
      robots := [], names := [] } "Robbie") "Arthur"

/-! ## Helper lemmas -/

/-- Every robot's decider approves its own proposal (the `this == object`
disjunct). -/
lemma robot_decider_self (r : Robot) (p : EntityId) (x y : Int)
    (d : Direction) (b : Bool) : r.constraintDecider p p x y d b = true := by
  simp [Robot.constraintDecider]

/-- The table's decider approves the table's own proposal. -/
lemma table_decider_self (t : Table) (p : EntityId) (x y : Int)
    (d : Direction) (b : Bool) : t.constraintDecider p p x y d b = true := by
  simp [Table.constraintDecider]

/-- The robot poll succeeds exactly when every polled robot approves. -/
lemma robotsDecide_iff (l : List Robot) (k : Nat) (p : EntityId) (x y : Int)
    (d : Direction) (b : Bool) :
    robotsDecide l k p x y d b = true ↔
      ∀ j, (h : j < l.length) →
        (l.get ⟨j, h⟩).constraintDecider (.robotId (k + j)) p x y d b = true := by
  induction l generalizing k with
  | nil => simp [robotsDecide]
  | cons r rest ih =>
      simp only [robotsDecide, Bool.and_eq_true, ih]
      constructor
      · rintro ⟨h0, hrest⟩ j hj
        cases j with
        | zero => simpa using h0
        | succ j' =>
            have hj' : j' < rest.length := by simpa using Nat.lt_of_succ_lt_succ hj
            have := hrest j' hj'
            have harith : k + 1 + j' = k + (j' + 1) := by omega
            simpa [harith] using this
      · intro hall
        refine ⟨by simpa using hall 0 (Nat.succ_pos _), fun j hj => ?_⟩
        have := hall (j + 1) (Nat.succ_lt_succ hj)
        have harith : k + (j + 1) = k + 1 + j := by omega
        simpa [harith] using this

/-- Reading a position the update wrote. -/
lemma getRobot_setRobot_self (s : GameState) (i : Nat) (r : Robot)
    (h : i < s.robots.length) : (s.setRobot i r).getRobot i = r := by
  simp [GameState.getRobot, GameState.setRobot, List.getD, List.getElem?_set_self', h]

/-- Reading a position the update did not touch. -/
lemma getRobot_setRobot_ne (s : GameState) (i j : Nat) (r : Robot)
    (h : i ≠ j) : (s.setRobot i r).getRobot j = s.getRobot j := by
  simp [GameState.getRobot, GameState.setRobot, List.getD, List.getElem?_set_ne h]

lemma setRobot_robots_length (s : GameState) (i : Nat) (r : Robot) :
    (s.setRobot i r).robots.length = s.robots.length := by
  simp [GameState.setRobot]

lemma setRobot_table (s : GameState) (i : Nat) (r : Robot) :
    (s.setRobot i r).table = s.table := rfl

lemma getRobot_eq_get (s : GameState) (j : Nat) (h : j < s.robots.length) :
    s.getRobot j = s.robots.get ⟨j, h⟩ := by
  simp [GameState.getRobot, List.getD, List.getElem?_eq_getElem h]

/-- `Constraint::acceptable` polls the direction, the table and every robot. -/
lemma acceptable_iff (s : GameState) (p : EntityId) (x y : Int)
    (d : Direction) (b : Bool) :
    Constraint.acceptable s p x y d b = true ↔
      validDirection d = true ∧
      s.table.constraintDecider .tableId p x y d b = true ∧
      ∀ j, (h : j < s.robots.length) →
        (s.robots.get ⟨j, h⟩).constraintDecider (.robotId j) p x y d b = true := by
  simp only [Constraint.acceptable, Bool.and_eq_true, robotsDecide_iff,
    Nat.zero_add, and_assoc]

/-- An accepted proposal has a valid direction. -/
lemma acceptable_validDirection (s : GameState) (p : EntityId) (x y : Int)
    (d : Direction) (b : Bool)
    (h : Constraint.acceptable s p x y d b = true) : validDirection d = true :=
  ((acceptable_iff s p x y d b).mp h).1

/-- An accepted on-table proposal by robot `i` is vetoed by no other on-table
robot: every such robot stands elsewhere. -/
lemma acceptable_no_clash (s : GameState) (i : Nat) (x y : Int) (d : Direction)
    (hacc : Constraint.acceptable s (.robotId i) x y d true = true)
    (j : Nat) (hj : j < s.robots.length) (hne : j ≠ i)
    (hOn : (s.getRobot j).onTable = true) :
    ¬((s.getRobot j).xpos = x ∧ (s.getRobot j).ypos = y) := by
  have hj' := ((acceptable_iff s (.robotId i) x y d true).mp hacc).2.2 j hj
  rw [← getRobot_eq_get s j hj] at hj'
  rintro ⟨hx, hy⟩
  simp [Robot.constraintDecider, hOn, hx, hy, hne] at hj'

/-! ## C1: constraint-registry acceptability -/

/-- C1. `Constraint::acceptable(P, x, y, d, b)` returns true iff `d` is one
of the four valid directions and every registered voter other than the
proposer approves the proposal; the proposer's own vote is always true
(self-exclusion is built into each decider's `this == object` disjunct), so
a robot's own current position never causes rejection of its own proposal. -/
theorem acceptable_iff_every_other_voter_approves (s : GameState)
    (p : EntityId) (x y : Int) (d : Direction) (b : Bool) :
    Constraint.acceptable s p x y d b = true ↔
      validDirection d = true ∧
      (p ≠ .tableId → s.table.constraintDecider .tableId p x y d b = true) ∧
      ∀ j, (h : j < s.robots.length) → p ≠ .robotId j →
        (s.robots.get ⟨j, h⟩).constraintDecider (.robotId j) p x y d b = true := by
  rw [acceptable_iff]
  refine ⟨fun ⟨hd, ht, hr⟩ => ⟨hd, fun _ => ht, fun j h _ => hr j h⟩,
          fun ⟨hd, ht, hr⟩ => ⟨hd, ?_, fun j h => ?_⟩⟩
  · by_cases hp : p = .tableId
    · subst hp; exact table_decider_self s.table .tableId x y d b
    · exact ht hp
  · by_cases hp : p = .robotId j
    · subst hp; exact robot_decider_self _ _ x y d b
    · exact hr j h hp

/-- An update at an out-of-range index changes nothing. -/
lemma setRobot_of_length_le (s : GameState) (i : Nat) (r : Robot)
    (h : s.robots.length ≤ i) : s.setRobot i r = s := by
  simp [GameState.setRobot, List.set_eq_of_length_le h]

/-! ## C2: place -/

/-- C2. `Robot::place(x, y, d)` fails — emitting a message and leaving the
robot's position, facing and on-table flag all unchanged — when `d` is
invalid or the registry rejects the proposal `(self, x, y, d, true)`; it
succeeds otherwise, setting position to `(x, y)`, facing to `d` and the
on-table flag to true. -/
theorem place_characterisation (s : GameState) (i : Nat) (x y : Int)
    (d : Direction) :
    ((validDirection d = false ∨
        Constraint.acceptable s (.robotId i) x y d true = false) →
      placeRobot s i x y d =
        (s, ["Ignoring attempt to place robot " ++ (s.getRobot i).name ++
             " in invalid position"])) ∧
    (Constraint.acceptable s (.robotId i) x y d true = true →
      placeRobot s i x y d =
        (s.setRobot i { s.getRobot i with
            xpos := x, ypos := y, direction := d, onTable := true }, [])) := by
  constructor
  · intro h
    have hacc : Constraint.acceptable s (.robotId i) x y d true = false := by
      rcases h with h | h
      · simp [Constraint.acceptable, h]
      · exact h
    simp [placeRobot, hacc]
  · intro hacc
    simp [placeRobot, hacc]

/-! ## C3: move -/

/-- C3. `Robot::move()` is a no-op with a "not on table" message when the
robot is off the table; otherwise it proposes the current position displaced
by the facing's unit vector, and commits exactly when the registry accepts
`(self, newX, newY, facing, true)`, leaving the position unchanged with a
report on rejection; in every case move changes neither the facing nor the
on-table flag. -/
theorem move_characterisation (s : GameState) (i : Nat) :
    ((s.getRobot i).onTable = false →
      moveRobot s i =
        (s, ["Robot " ++ (s.getRobot i).name ++ " is not on the table"])) ∧
    ((s.getRobot i).onTable = true →
      (Constraint.acceptable s (.robotId i)
          ((s.getRobot i).xpos + (displacement (s.getRobot i).direction).1)
          ((s.getRobot i).ypos + (displacement (s.getRobot i).direction).2)
          (s.getRobot i).direction true = true →
        (moveRobot s i).1 = s.setRobot i { s.getRobot i with
            xpos := (s.getRobot i).xpos + (displacement (s.getRobot i).direction).1,
            ypos := (s.getRobot i).ypos + (displacement (s.getRobot i).direction).2 }) ∧
      (Constraint.acceptable s (.robotId i)
          ((s.getRobot i).xpos + (displacement (s.getRobot i).direction).1)
          ((s.getRobot i).ypos + (displacement (s.getRobot i).direction).2)
          (s.getRobot i).direction true = false →
        (moveRobot s i).1 = s ∧ (moveRobot s i).2 ≠ [])) ∧
    ((moveRobot s i).1.getRobot i).direction = (s.getRobot i).direction ∧
    ((moveRobot s i).1.getRobot i).onTable = (s.getRobot i).onTable := by
  refine ⟨fun hOff => ?_, fun hOn => ⟨fun hacc => ?_, fun hacc => ?_⟩, ?_, ?_⟩
  · simp [moveRobot, hOff]
  · simp [moveRobot, hOn, hacc]
  · refine ⟨by simp [moveRobot, hOn, hacc], ?_⟩
    simp only [moveRobot, hOn, hacc, Bool.not_true, Bool.false_eq_true,
      if_false, if_true]
    split <;> simp
  all_goals
    by_cases hOn : (s.getRobot i).onTable = true
    · by_cases hacc : Constraint.acceptable s (.robotId i)
          ((s.getRobot i).xpos + (displacement (s.getRobot i).direction).1)
          ((s.getRobot i).ypos + (displacement (s.getRobot i).direction).2)
          (s.getRobot i).direction true = true
      · by_cases hlen : i < s.robots.length
        · simp [moveRobot, hOn, hacc, getRobot_setRobot_self _ _ _ hlen]
        · simp [moveRobot, hOn, hacc,
            setRobot_of_length_le s i _ (Nat.le_of_not_lt hlen)]
      · simp [moveRobot, hOn, hacc]
    · simp only [Bool.not_eq_true] at hOn
      simp [moveRobot, hOn]

/-! ## Invariants: no two on-table robots share a cell; on-table facings are
valid -/

/-- No two distinct on-table robots occupy the same cell. -/
def NoCollision (s : GameState) : Prop :=
  ∀ i j, i < s.robots.length → j < s.robots.length → i ≠ j →
    (s.getRobot i).onTable = true → (s.getRobot j).onTable = true →
    ¬((s.getRobot i).xpos = (s.getRobot j).xpos ∧
      (s.getRobot i).ypos = (s.getRobot j).ypos)

/-- Every on-table robot faces one of the four valid directions. -/
def OnTableValidFacing (s : GameState) : Prop :=
  ∀ i, i < s.robots.length → (s.getRobot i).onTable = true →
    validDirection (s.getRobot i).direction = true

lemma noCollision_of_robots_eq (s s' : GameState) (h : s'.robots = s.robots)
    (hnc : NoCollision s) : NoCollision s' := by
  intro i j hi hj hne hOi hOj
  simp only [GameState.getRobot, h] at hOi hOj ⊢
  exact hnc i j (h ▸ hi) (h ▸ hj) hne hOi hOj

lemma onTableValidFacing_of_robots_eq (s s' : GameState)
    (h : s'.robots = s.robots) (hv : OnTableValidFacing s) :
    OnTableValidFacing s' := by
  intro i hi hOi
  simp only [GameState.getRobot, h] at hOi ⊢
  exact hv i (h ▸ hi) hOi

/-- Committing robot `i` to an accepted cell keeps the collision freedom. -/
lemma noCollision_setRobot_commit (s : GameState) (i : Nat) (x y : Int)
    (d : Direction) (r' : Robot) (hx : r'.xpos = x) (hy : r'.ypos = y)
    (hacc : Constraint.acceptable s (.robotId i) x y d true = true)
    (hnc : NoCollision s) : NoCollision (s.setRobot i r') := by
  intro a b ha hb hne hOa hOb
  rw [setRobot_robots_length] at ha hb
  by_cases hai : a = i
  · subst hai
    have hbne : b ≠ a := fun h => hne h.symm
    rw [getRobot_setRobot_self s a r' ha] at hOa ⊢
    rw [getRobot_setRobot_ne s a b r' hbne.symm] at hOb ⊢
    have := acceptable_no_clash s a x y d hacc b hb hbne hOb
    rintro ⟨h1, h2⟩
    exact this ⟨h1 ▸ hx.symm ▸ rfl, h2 ▸ hy.symm ▸ rfl⟩
  · by_cases hbi : b = i
    · subst hbi
      rw [getRobot_setRobot_ne s b a r' (fun h => hai h.symm)] at hOa ⊢
      rw [getRobot_setRobot_self s b r' hb] at hOb ⊢
      have := acceptable_no_clash s b x y d hacc a ha hai hOa
      rintro ⟨h1, h2⟩
      exact this ⟨hx ▸ h1, hy ▸ h2⟩
    · rw [getRobot_setRobot_ne s i a r' (fun h => hai h.symm)] at hOa ⊢
      rw [getRobot_setRobot_ne s i b r' (fun h => hbi h.symm)] at hOb ⊢
      exact hnc a b ha hb hne hOa hOb

/-- Updating robot `i` without moving it (same cell; on the table only if it
already was) keeps the collision freedom. -/
lemma noCollision_setRobot_stay (s : GameState) (i : Nat) (r' : Robot)
    (hx : r'.xpos = (s.getRobot i).xpos) (hy : r'.ypos = (s.getRobot i).ypos)
    (hOn : r'.onTable = true → (s.getRobot i).onTable = true)
    (hnc : NoCollision s) : NoCollision (s.setRobot i r') := by
  intro a b ha hb hne hOa hOb
  rw [setRobot_robots_length] at ha hb
  by_cases hai : a = i
  · subst hai
    have hbne : b ≠ a := fun h => hne h.symm
    rw [getRobot_setRobot_self s a r' ha] at hOa ⊢
    rw [getRobot_setRobot_ne s a b r' hbne.symm] at hOb ⊢
    rw [hx, hy]
    exact hnc a b ha hb hne (hOn hOa) hOb
  · by_cases hbi : b = i
    · subst hbi
      rw [getRobot_setRobot_ne s b a r' (fun h => hai h.symm)] at hOa ⊢
      rw [getRobot_setRobot_self s b r' hb] at hOb ⊢
      rw [hx, hy]
      exact hnc a b ha hb hne hOa (hOn hOb)
    · rw [getRobot_setRobot_ne s i a r' (fun h => hai h.symm)] at hOa ⊢
      rw [getRobot_setRobot_ne s i b r' (fun h => hbi h.symm)] at hOb ⊢
      exact hnc a b ha hb hne hOa hOb

lemma validDirection_rotateLeft (d : Direction) :
    validDirection (rotateLeft d) = validDirection d := by cases d <;> rfl

lemma validDirection_rotateRight (d : Direction) :
    validDirection (rotateRight d) = validDirection d := by cases d <;> rfl

lemma getRobot_createRobot_lt (s : GameState) (n : String) (j : Nat)
    (h : j < s.robots.length) : (createRobot s n).getRobot j = s.getRobot j := by
  simp only [createRobot, GameState.getRobot]
  exact List.getD_append _ _ _ _ h

lemma getRobot_createRobot_ge (s : GameState) (n : String) (j : Nat)
    (h : s.robots.length ≤ j) :
    ((createRobot s n).getRobot j).onTable = false := by
  simp only [createRobot, GameState.getRobot]
  rw [List.getD_append_right _ _ _ _ h]
  rcases Nat.lt_or_ge (j - s.robots.length) 1 with hj | hj
  · have h0 : j - s.robots.length = 0 := by omega
    simp [h0, mkRobot]
  · rw [List.getD_eq_default _ _ (by simpa using hj)]
    simp [defaultRobot, mkRobot]

lemma noCollision_createRobot (s : GameState) (n : String)
    (hnc : NoCollision s) : NoCollision (createRobot s n) := by
  intro a b ha hb hne hOa hOb
  by_cases haL : a < s.robots.length
  · by_cases hbL : b < s.robots.length
    · rw [getRobot_createRobot_lt s n a haL] at hOa ⊢
      rw [getRobot_createRobot_lt s n b hbL] at hOb ⊢
      exact hnc a b haL hbL hne hOa hOb
    · rw [getRobot_createRobot_ge s n b (Nat.le_of_not_lt hbL)] at hOb
      exact absurd hOb (by simp)
  · rw [getRobot_createRobot_ge s n a (Nat.le_of_not_lt haL)] at hOa
    exact absurd hOa (by simp)

lemma onTableValidFacing_createRobot (s : GameState) (n : String)
    (hv : OnTableValidFacing s) : OnTableValidFacing (createRobot s n) := by
  intro j hj hOj
  by_cases hjL : j < s.robots.length
  · rw [getRobot_createRobot_lt s n j hjL] at hOj ⊢
    exact hv j hjL hOj
  · rw [getRobot_createRobot_ge s n j (Nat.le_of_not_lt hjL)] at hOj
    exact absurd hOj (by simp)

lemma onTableValidFacing_setRobot (s : GameState) (i : Nat) (r' : Robot)
    (hr : r'.onTable = true → validDirection r'.direction = true)
    (hv : OnTableValidFacing s) : OnTableValidFacing (s.setRobot i r') := by
  intro j hj hOj
  rw [setRobot_robots_length] at hj
  by_cases hji : j = i
  · subst hji
    rw [getRobot_setRobot_self s j r' hj] at hOj ⊢
    exact hr hOj
  · rw [getRobot_setRobot_ne s i j r' (fun h => hji h.symm)] at hOj ⊢
    exact hv j hj hOj

/-! Result shape of each robot operation: the state is either untouched or a
single-robot update of a known form. -/

lemma getRobot_ge (s : GameState) (i : Nat) (h : s.robots.length ≤ i) :
    s.getRobot i = defaultRobot := List.getD_eq_default _ _ h

lemma placeRobot_fst (s : GameState) (i : Nat) (x y : Int) (d : Direction) :
    (placeRobot s i x y d).1 = s ∨
    ((placeRobot s i x y d).1 = s.setRobot i { s.getRobot i with
        xpos := x, ypos := y, direction := d, onTable := true } ∧
      Constraint.acceptable s (.robotId i) x y d true = true) := by
  by_cases hacc : Constraint.acceptable s (.robotId i) x y d true = true
  · exact .inr ⟨by simp [placeRobot, hacc], hacc⟩
  · exact .inl (by simp [placeRobot, hacc])

lemma moveRobot_fst (s : GameState) (i : Nat) :
    (moveRobot s i).1 = s ∨
    ((moveRobot s i).1 = s.setRobot i { s.getRobot i with
        xpos := (s.getRobot i).xpos + (displacement (s.getRobot i).direction).1,
        ypos := (s.getRobot i).ypos + (displacement (s.getRobot i).direction).2 } ∧
      (s.getRobot i).onTable = true ∧
      Constraint.acceptable s (.robotId i)
        ((s.getRobot i).xpos + (displacement (s.getRobot i).direction).1)
        ((s.getRobot i).ypos + (displacement (s.getRobot i).direction).2)
        (s.getRobot i).direction true = true) := by
  by_cases hOn : (s.getRobot i).onTable = true
  · by_cases hacc : Constraint.acceptable s (.robotId i)
        ((s.getRobot i).xpos + (displacement (s.getRobot i).direction).1)
        ((s.getRobot i).ypos + (displacement (s.getRobot i).direction).2)
        (s.getRobot i).direction true = true
    · exact .inr ⟨by simp [moveRobot, hOn, hacc], hOn, hacc⟩
    · exact .inl (by simp [moveRobot, hOn, hacc])
  · simp only [Bool.not_eq_true] at hOn
    exact .inl (by simp [moveRobot, hOn])

lemma leftRobot_fst (s : GameState) (i : Nat) :
    (leftRobot s i).1 = s ∨
    ((leftRobot s i).1 = s.setRobot i { s.getRobot i with
        direction := rotateLeft (s.getRobot i).direction } ∧
      (s.getRobot i).onTable = true) := by
  by_cases hOn : (s.getRobot i).onTable = true
  · exact .inr ⟨by simp [leftRobot, hOn], hOn⟩
  · simp only [Bool.not_eq_true] at hOn
    exact .inl (by simp [leftRobot, hOn])

lemma rightRobot_fst (s : GameState) (i : Nat) :
    (rightRobot s i).1 = s ∨
    ((rightRobot s i).1 = s.setRobot i { s.getRobot i with
        direction := rotateRight (s.getRobot i).direction } ∧
      (s.getRobot i).onTable = true) := by
  by_cases hOn : (s.getRobot i).onTable = true
  · exact .inr ⟨by simp [rightRobot, hOn], hOn⟩
  · simp only [Bool.not_eq_true] at hOn
    exact .inl (by simp [rightRobot, hOn])

lemma removeRobot_fst (s : GameState) (i : Nat) :
    (removeRobot s i).1 = s.setRobot i { s.getRobot i with
      onTable := false, direction := .Invalid } := rfl

lemma reportRobot_fst (s : GameState) (i : Nat) : (reportRobot s i).1 = s := by
  by_cases hOn : (s.getRobot i).onTable = true
  · simp [reportRobot, hOn]
  · simp only [Bool.not_eq_true] at hOn
    simp [reportRobot, hOn]

/-! Preservation of the collision invariant by every operation. -/

lemma noCollision_placeRobot (s : GameState) (i : Nat) (x y : Int)
    (d : Direction) (hnc : NoCollision s) :
    NoCollision (placeRobot s i x y d).1 := by
  rcases placeRobot_fst s i x y d with h | ⟨h, hacc⟩
  · rw [h]; exact hnc
  · rw [h]; exact noCollision_setRobot_commit s i x y d _ rfl rfl hacc hnc

lemma noCollision_moveRobot (s : GameState) (i : Nat) (hnc : NoCollision s) :
    NoCollision (moveRobot s i).1 := by
  rcases moveRobot_fst s i with h | ⟨h, _, hacc⟩
  · rw [h]; exact hnc
  · rw [h]; exact noCollision_setRobot_commit s i _ _ _ _ rfl rfl hacc hnc

lemma noCollision_leftRobot (s : GameState) (i : Nat) (hnc : NoCollision s) :
    NoCollision (leftRobot s i).1 := by
  rcases leftRobot_fst s i with h | ⟨h, _⟩
  · rw [h]; exact hnc
  · rw [h]; exact noCollision_setRobot_stay s i _ rfl rfl (fun h' => h') hnc

lemma noCollision_rightRobot (s : GameState) (i : Nat) (hnc : NoCollision s) :
    NoCollision (rightRobot s i).1 := by
  rcases rightRobot_fst s i with h | ⟨h, _⟩
  · rw [h]; exact hnc
  · rw [h]; exact noCollision_setRobot_stay s i _ rfl rfl (fun h' => h') hnc

lemma noCollision_removeRobot (s : GameState) (i : Nat) (hnc : NoCollision s) :
    NoCollision (removeRobot s i).1 := by
  rw [removeRobot_fst]
  exact noCollision_setRobot_stay s i _ rfl rfl (fun h => by simp at h) hnc

lemma noCollision_robotRespond (s : GameState) (i : Nat) (v : Verb)
    (args : List String) (hnc : NoCollision s) :
    NoCollision (robotRespond s i v args).1 := by
  cases v
  case place =>
    simp only [robotRespond]
    split
    · exact hnc
    · exact noCollision_placeRobot s i _ _ _ hnc
  case move => exact noCollision_moveRobot s i hnc
  case left => exact noCollision_leftRobot s i hnc
  case right => exact noCollision_rightRobot s i hnc
  case report =>
    simp only [robotRespond]
    rw [reportRobot_fst]
    exact hnc
  case remove => exact noCollision_removeRobot s i hnc
  all_goals exact hnc

lemma tableRespond_robots (s : GameState) (v : Verb) (args : List String) :
    (tableRespond s v args).1.robots = s.robots := by
  cases v <;> simp [tableRespond, setTable]

lemma noCollision_broadcastRobots (s : GameState) (idxs : List Nat) (v : Verb)
    (args : List String) (hnc : NoCollision s) :
    NoCollision (broadcastRobots s idxs v args).1 := by
  induction idxs generalizing s with
  | nil => exact hnc
  | cons i rest ih =>
      simp only [broadcastRobots]
      split
      · exact noCollision_robotRespond s i v args hnc
      · exact ih _ (noCollision_robotRespond s i v args hnc)

lemma noCollision_applyCmd (s : GameState) (c : RawCmd)
    (hnc : NoCollision s) : NoCollision (applyCmd s c).1 := by
  rcases c with ⟨tn, v, args⟩
  cases tn with
  | some n =>
      simp only [applyCmd]
      cases findRobot s n with
      | none => exact hnc
      | some i =>
          cases v <;>
            first
              | exact noCollision_createRobot s _ hnc
              | exact noCollision_robotRespond s i _ args hnc
              | exact hnc
  | none =>
      cases v <;>
        first
          | exact noCollision_createRobot s _ hnc
          | exact hnc
          | exact noCollision_broadcastRobots _ _ _ args
              (noCollision_of_robots_eq s _ (tableRespond_robots s _ args) hnc)

lemma noCollision_runCmds (s : GameState) (cmds : List RawCmd)
    (hnc : NoCollision s) : NoCollision (runCmds s cmds) := by
  induction cmds generalizing s with
  | nil => exact hnc
  | cons c rest ih => exact ih _ (noCollision_applyCmd s c hnc)

lemma noCollision_bootstrap : NoCollision bootstrap := by
  intro i j hi hj _ hOi _
  have hlen : bootstrap.robots.length = 2 := rfl
  rw [hlen] at hi
  have : ∀ k, k < 2 → (bootstrap.getRobot k).onTable = false := by decide
  rw [this i hi] at hOi
  exact absurd hOi (by simp)

/-! Preservation of the valid-facing invariant by every operation. -/

lemma onTableValidFacing_placeRobot (s : GameState) (i : Nat) (x y : Int)
    (d : Direction) (hv : OnTableValidFacing s) :
    OnTableValidFacing (placeRobot s i x y d).1 := by
  rcases placeRobot_fst s i x y d with h | ⟨h, hacc⟩
  · rw [h]; exact hv
  · rw [h]
    exact onTableValidFacing_setRobot s i _
      (fun _ => acceptable_validDirection _ _ _ _ _ _ hacc) hv

lemma onTableValidFacing_moveRobot (s : GameState) (i : Nat)
    (hv : OnTableValidFacing s) : OnTableValidFacing (moveRobot s i).1 := by
  rcases moveRobot_fst s i with h | ⟨h, hOn, hacc⟩
  · rw [h]; exact hv
  · rw [h]
    refine onTableValidFacing_setRobot s i _ (fun _ => ?_) hv
    exact acceptable_validDirection _ _ _ _ _ _ hacc

lemma onTableValidFacing_leftRobot (s : GameState) (i : Nat)
    (hv : OnTableValidFacing s) : OnTableValidFacing (leftRobot s i).1 := by
  rcases leftRobot_fst s i with h | ⟨h, hOn⟩
  · rw [h]; exact hv
  · rw [h]
    refine onTableValidFacing_setRobot s i _ (fun _ => ?_) hv
    rcases Nat.lt_or_ge i s.robots.length with hlen | hlen
    · rw [validDirection_rotateLeft]
      exact hv i hlen hOn
    · rw [getRobot_ge s i hlen] at hOn
      exact absurd hOn (by simp [defaultRobot, mkRobot])

lemma onTableValidFacing_rightRobot (s : GameState) (i : Nat)
    (hv : OnTableValidFacing s) : OnTableValidFacing (rightRobot s i).1 := by
  rcases rightRobot_fst s i with h | ⟨h, hOn⟩
  · rw [h]; exact hv
  · rw [h]
    refine onTableValidFacing_setRobot s i _ (fun _ => ?_) hv
    rcases Nat.lt_or_ge i s.robots.length with hlen | hlen
    · rw [validDirection_rotateRight]
      exact hv i hlen hOn
    · rw [getRobot_ge s i hlen] at hOn
      exact absurd hOn (by simp [defaultRobot, mkRobot])

lemma onTableValidFacing_removeRobot (s : GameState) (i : Nat)
    (hv : OnTableValidFacing s) : OnTableValidFacing (removeRobot s i).1 := by
  rw [removeRobot_fst]
  exact onTableValidFacing_setRobot s i _ (fun h => by simp at h) hv

lemma onTableValidFacing_robotRespond (s : GameState) (i : Nat) (v : Verb)
    (args : List String) (hv : OnTableValidFacing s) :
    OnTableValidFacing (robotRespond s i v args).1 := by
  cases v
  case place =>
    simp only [robotRespond]
    split
    · exact hv
    · exact onTableValidFacing_placeRobot s i _ _ _ hv
  case move => exact onTableValidFacing_moveRobot s i hv
  case left => exact onTableValidFacing_leftRobot s i hv
  case right => exact onTableValidFacing_rightRobot s i hv
  case report =>
    simp only [robotRespond]
    rw [reportRobot_fst]
    exact hv
  case remove => exact onTableValidFacing_removeRobot s i hv
  all_goals exact hv

lemma onTableValidFacing_broadcastRobots (s : GameState) (idxs : List Nat)
    (v : Verb) (args : List String) (hv : OnTableValidFacing s) :
    OnTableValidFacing (broadcastRobots s idxs v args).1 := by
  induction idxs generalizing s with
  | nil => exact hv
  | cons i rest ih =>
      simp only [broadcastRobots]
      split
      · exact onTableValidFacing_robotRespond s i v args hv
      · exact ih _ (onTableValidFacing_robotRespond s i v args hv)

lemma onTableValidFacing_applyCmd (s : GameState) (c : RawCmd)
    (hv : OnTableValidFacing s) : OnTableValidFacing (applyCmd s c).1 := by
  rcases c with ⟨tn, v, args⟩
  cases tn with
  | some n =>
      simp only [applyCmd]
      cases findRobot s n with
      | none => exact hv
      | some i =>
          cases v <;>
            first
              | exact onTableValidFacing_createRobot s _ hv
              | exact onTableValidFacing_robotRespond s i _ args hv
              | exact hv
  | none =>
      cases v <;>
        first
          | exact onTableValidFacing_createRobot s _ hv
          | exact hv
          | exact onTableValidFacing_broadcastRobots _ _ _ args
              (onTableValidFacing_of_robots_eq s _ (tableRespond_robots s _ args) hv)

lemma onTableValidFacing_runCmds (s : GameState) (cmds : List RawCmd)
    (hv : OnTableValidFacing s) : OnTableValidFacing (runCmds s cmds) := by
  induction cmds generalizing s with
  | nil => exact hv
  | cons c rest ih => exact ih _ (onTableValidFacing_applyCmd s c hv)

lemma onTableValidFacing_bootstrap : OnTableValidFacing bootstrap := by
  intro i hi hOi
  have hlen : bootstrap.robots.length = 2 := rfl
  rw [hlen] at hi
  have : ∀ k, k < 2 → (bootstrap.getRobot k).onTable = false := by decide
  rw [this i hi] at hOi
  exact absurd hOi (by simp)

/-! ## C4: no two distinct on-table robots ever share a cell -/

/-- C4. From the bootstrap state (table `[(0,0),(10,10))`, Robbie and Arthur
off the table), every command sequence leads to a state in which no two
distinct on-table robots occupy the same cell; moreover every single command
application preserves that invariant from any state satisfying it. -/
theorem no_shared_cell_invariant :
    (∀ cmds : List RawCmd, NoCollision (runCmds bootstrap cmds)) ∧
    (∀ s c, NoCollision s → NoCollision (applyCmd s c).1) :=
  ⟨fun cmds => noCollision_runCmds bootstrap cmds noCollision_bootstrap,
   fun s c h => noCollision_applyCmd s c h⟩

/-! ## C10: on-table robots always face a valid direction -/

/-- C10. In every state reachable from the bootstrap state, each on-table
robot faces one of the four valid directions — never `Invalid` — so
`Robot::move` on an on-table robot never takes the facing-is-Invalid error
branch: its only possible outputs are silence (commit) or the
constraint-rejection message. -/
theorem on_table_facing_always_valid :
    ∀ cmds : List RawCmd,
      OnTableValidFacing (runCmds bootstrap cmds) ∧
      ∀ i, i < (runCmds bootstrap cmds).robots.length →
        ((runCmds bootstrap cmds).getRobot i).onTable = true →
        ((runCmds bootstrap cmds).getRobot i).direction ≠ .Invalid ∧
        ((moveRobot (runCmds bootstrap cmds) i).2 = [] ∨
         (moveRobot (runCmds bootstrap cmds) i).2 =
           ["Ignoring attempt to move robot " ++
            ((runCmds bootstrap cmds).getRobot i).name ++
            " to invalid position"]) := by
  intro cmds
  have hv := onTableValidFacing_runCmds bootstrap cmds onTableValidFacing_bootstrap
  refine ⟨hv, fun i hi hOn => ?_⟩
  have hvalid := hv i hi hOn
  have hne : ((runCmds bootstrap cmds).getRobot i).direction ≠ .Invalid := by
    intro h
    rw [h] at hvalid
    exact absurd hvalid (by decide)
  refine ⟨hne, ?_⟩
  set s := runCmds bootstrap cmds with hs
  by_cases hacc : Constraint.acceptable s (.robotId i)
      ((s.getRobot i).xpos + (displacement (s.getRobot i).direction).1)
      ((s.getRobot i).ypos + (displacement (s.getRobot i).direction).2)
      (s.getRobot i).direction true = true
  · left
    simp [moveRobot, hOn, hacc, hne]
  · right
    simp [moveRobot, hOn, hacc, hne]

/-! ## C5: table resize -/

/-- C5. Evaluating the code at the degenerate resize `table 5 5 5 5` from the
bootstrap state: `Table::setTable` performs no validity check, so the
degenerate rectangle is committed and the prior bounds are lost — the spec's
required rejection (`xmin ≥ xmax` or `ymin ≥ ymax` keeps the prior bounds) is
not implemented by this draft. -/
theorem table_resize_degenerate_commits :
    (runCmds bootstrap [⟨none, .table, ["5", "5", "5", "5"]⟩]).table =
      { xmin := 5, ymin := 5, xmax := 5, ymax := 5 } ∧
    (runCmds bootstrap [⟨none, .table, ["5", "5", "5", "5"]⟩]).table ≠
      bootstrap.table := by
  exact ⟨by decide, by decide⟩

/-! ## C6: the table's decision function and the boundary cells -/

/-- `Table::constraintDecider` in propositional form. -/
lemma table_decider_iff (t : Table) (selfId objectId : EntityId) (x y : Int)
    (d : Direction) (b : Bool) :
    t.constraintDecider selfId objectId x y d b = true ↔
      (selfId = objectId ∨ b = false ∨
       (t.xmin ≤ x ∧ x < t.xmax ∧ t.ymin ≤ y ∧ y < t.ymax)) := by
  simp only [Table.constraintDecider, Bool.or_eq_true, Bool.and_eq_true,
    beq_iff_eq, Bool.not_eq_true', decide_eq_true_eq, and_assoc, or_assoc]

/-- `Robot::constraintDecider` in propositional form. -/
lemma robot_decider_iff (r : Robot) (selfId objectId : EntityId) (x y : Int)
    (d : Direction) (b : Bool) :
    r.constraintDecider selfId objectId x y d b = true ↔
      (selfId = objectId ∨ r.onTable = false ∨ b = false ∨
       r.xpos ≠ x ∨ r.ypos ≠ y) := by
  simp only [Robot.constraintDecider, Bool.or_eq_true, beq_iff_eq,
    Bool.not_eq_true', decide_eq_true_eq, or_assoc]

/-- C6. The table's decider approves a proposal exactly when the asked entity
is the proposer itself, or the proposal is not an on-table state, or the cell
lies strictly inside the bounds (`xmin <= x < xmax`, `ymin <= y < ymax`);
consequently a robot that no other on-table robot constrains is placed
successfully at `(xmax-1, ymax-1)` but is rejected, with a message and an
unchanged state, at `(xmax, ymax)`. -/
theorem table_decider_and_boundary (s : GameState) (i : Nat) (d : Direction)
    (hd : validDirection d = true)
    (hx : s.table.xmin < s.table.xmax) (hy : s.table.ymin < s.table.ymax)
    (hfree : ∀ j, j < s.robots.length → j ≠ i →
      (s.getRobot j).onTable = true →
      ¬((s.getRobot j).xpos = s.table.xmax - 1 ∧
        (s.getRobot j).ypos = s.table.ymax - 1)) :
    (∀ (t : Table) (selfId objectId : EntityId) (x y : Int) (d' : Direction)
        (b : Bool),
      t.constraintDecider selfId objectId x y d' b = true ↔
        (selfId = objectId ∨ b = false ∨
         (t.xmin ≤ x ∧ x < t.xmax ∧ t.ymin ≤ y ∧ y < t.ymax))) ∧
    (placeRobot s i (s.table.xmax - 1) (s.table.ymax - 1) d).1 =
      s.setRobot i { s.getRobot i with
        xpos := s.table.xmax - 1, ypos := s.table.ymax - 1,
        direction := d, onTable := true } ∧
    (placeRobot s i (s.table.xmax - 1) (s.table.ymax - 1) d).2 = [] ∧
    placeRobot s i s.table.xmax s.table.ymax d =
      (s, ["Ignoring attempt to place robot " ++ (s.getRobot i).name ++
           " in invalid position"]) := by
  refine ⟨fun t selfId objectId x y d' b =>
    table_decider_iff t selfId objectId x y d' b, ?_⟩
  have hacc : Constraint.acceptable s (.robotId i)
      (s.table.xmax - 1) (s.table.ymax - 1) d true = true := by
    rw [acceptable_iff]
    refine ⟨hd, ?_, fun j hj => ?_⟩
    · rw [table_decider_iff]
      exact .inr (.inr ⟨by omega, by omega, by omega, by omega⟩)
    · by_cases hji : j = i
      · subst hji
        exact robot_decider_self _ _ _ _ _ _
      · rw [← getRobot_eq_get s j hj, robot_decider_iff]
        by_cases hOn : (s.getRobot j).onTable = true
        · have hfj := hfree j hj hji hOn
          by_cases hxj : (s.getRobot j).xpos = s.table.xmax - 1
          · by_cases hyj : (s.getRobot j).ypos = s.table.ymax - 1
            · exact absurd ⟨hxj, hyj⟩ hfj
            · exact .inr (.inr (.inr (.inr hyj)))
          · exact .inr (.inr (.inr (.inl hxj)))
        · simp only [Bool.not_eq_true] at hOn
          exact .inr (.inl hOn)
  have hrej : Constraint.acceptable s (.robotId i)
      s.table.xmax s.table.ymax d true = false := by
    rw [← Bool.not_eq_true]
    intro h
    have htab :=
      ((acceptable_iff s (.robotId i) s.table.xmax s.table.ymax d true).mp h).2.1
    rw [table_decider_iff] at htab
    rcases htab with h' | h' | h'
    · exact absurd h' (by simp)
    · exact absurd h' (by simp)
    · omega
  exact ⟨by simp [placeRobot, hacc], by simp [placeRobot, hacc],
         by simp [placeRobot, hrej]⟩

/-- Witness for the boundary claim at the bootstrap state: Robbie placed at
`(xmax-1, ymax-1) = (9, 9)` of the default table succeeds. -/
theorem table_decider_and_boundary_witness :
    (placeRobot bootstrap 0 (bootstrap.table.xmax - 1) (bootstrap.table.ymax - 1)
        Direction.North).1 =
      bootstrap.setRobot 0 { bootstrap.getRobot 0 with
        xpos := bootstrap.table.xmax - 1, ypos := bootstrap.table.ymax - 1,
        direction := Direction.North, onTable := true } :=
  (table_decider_and_boundary bootstrap 0 Direction.North (by decide)
    (by decide) (by decide) (by decide)).2.1

/-! ## C7: missing required arguments -/

/-- C7 counterexample. A `table` line missing all four required tokens is not
dropped: `atoi` reads each missing token as 0 and the resize is committed, so
the state mutates (the table becomes the degenerate `(0,0,0,0)` rectangle). -/
theorem missing_table_tokens_still_mutate :
    (applyCmd bootstrap ⟨none, .table, []⟩).1.table =
      { xmin := 0, ymin := 0, xmax := 0, ymax := 0 } ∧
    (applyCmd bootstrap ⟨none, .table, []⟩).1 ≠ bootstrap :=
  ⟨by decide, by decide⟩

/-- C7 amended. A `place` whose direction token is missing or unresolvable
(a missing token reads as `""`, which `directionFromString` maps to Invalid)
throws: the command is dropped with an error and no state is mutated. A
`table` or `create` line with missing tokens is NOT a parse error: missing
`table` tokens are read as 0 by `atoi` and the resize is committed (with at
most three tokens the committed `ymax` is 0), and a missing `create` name
creates a robot whose name is the empty string. -/
theorem missing_argument_handling :
    (∀ (s : GameState) (i : Nat) (args : List String),
       directionFromString (args.getD 2 "") = .Invalid →
       robotRespond s i .place args =
         (s, ["Invalid direction " ++ args.getD 2 "" ++ " for place"], true)) ∧
    (∀ (s : GameState) (args : List String), args.length ≤ 3 →
       (tableRespond s .table args).1.table.ymax = 0) ∧
    (∀ s : GameState, (applyCmd s ⟨none, .create, []⟩).1.robots =
       s.robots ++ [mkRobot ""]) := by
  refine ⟨fun s i args h => ?_, fun s args h => ?_, fun s => ?_⟩
  · simp only [List.getD, List.get?_eq_getElem?] at h
    simp [robotRespond, h]
  · have h0 : atoi (args.getD 3 "") = 0 := by
      rw [List.getD_eq_default _ _ h]
      rfl
    simp only [List.getD, List.get?_eq_getElem?] at h0
    simp [tableRespond, setTable, h0]
  · simp [applyCmd, createRobot]

/-! ## C8: robot-name uniqueness -/

/-- C8 counterexample. After `create Robbie` from the bootstrap state (where
a robot named Robbie already exists), a second Robot object named "Robbie"
has been constructed and registered as a command listener and constraint
voter: the listener list now carries the name twice. -/
theorem duplicate_create_registers_second_listener :
    ((applyCmd bootstrap ⟨none, .create, ["Robbie"]⟩).1.robots.map Robot.name) =
      ["Robbie", "Arthur", "Robbie"] ∧
    ((applyCmd bootstrap ⟨none, .create, ["Robbie"]⟩).1.robots.countP
      (fun r => r.name == "Robbie")) = 2 :=
  ⟨by decide, by decide⟩

/-- C8 amended. Re-creating a known name adds no second robot addressable by
that name: the name map keeps its original entry, so `Robot::find` (hence the
`name:` prefix) still resolves to the original robot; but
`RobotFactory::createRobot` still constructs a second Robot object and
registers it as a broadcast listener and constraint voter — it is merely
unreachable by name. -/
theorem create_known_name_keeps_resolution (s : GameState) (n : String) :
    (((s.names.lookup n).isSome = true →
       (applyCmd s ⟨none, .create, [n]⟩).1.names = s.names ∧
       findRobot (applyCmd s ⟨none, .create, [n]⟩).1 n = findRobot s n) ∧
     (applyCmd s ⟨none, .create, [n]⟩).1.robots = s.robots ++ [mkRobot n]) := by
  constructor
  · intro h
    constructor <;> simp [applyCmd, createRobot, findRobot, h]
  · simp [applyCmd, createRobot]

/-! ## C9: remove is unconditional, absorbing and idempotent -/

/-- Repeated dispatch of verbs to one robot (`Robot::respond` per command). -/
def respondSeq (s : GameState) (i : Nat) : List (Verb × List String) → GameState
  | [] => s
  | p :: rest => respondSeq (robotRespond s i p.1 p.2).1 i rest

lemma removeRobot_getRobot (s : GameState) (i : Nat) :
    ((removeRobot s i).1.getRobot i).onTable = false ∧
    ((removeRobot s i).1.getRobot i).direction = .Invalid := by
  rw [removeRobot_fst]
  rcases Nat.lt_or_ge i s.robots.length with h | h
  · rw [getRobot_setRobot_self _ _ _ h]
    exact ⟨rfl, rfl⟩
  · rw [setRobot_of_length_le _ _ _ h, getRobot_ge _ _ h]
    exact ⟨rfl, rfl⟩

lemma removeRobot_idem (s : GameState) (i : Nat) :
    (removeRobot (removeRobot s i).1 i).1 = (removeRobot s i).1 := by
  rcases Nat.lt_or_ge i s.robots.length with h | h
  · rw [removeRobot_fst, removeRobot_fst, getRobot_setRobot_self _ _ _ h]
    simp [GameState.setRobot, List.set_set]
  · have h1 : (removeRobot s i).1 = s := by
      rw [removeRobot_fst, setRobot_of_length_le _ _ _ h]
    rw [h1]
    exact h1

/-- A non-place verb dispatched to an off-table robot with Invalid facing
leaves the robot off-table with Invalid facing. -/
lemma nonPlace_keeps_removed (s : GameState) (i : Nat) (v : Verb)
    (args : List String)
    (hv : v = Verb.move ∨ v = .left ∨ v = .right ∨ v = .report ∨ v = .remove)
    (hOff : (s.getRobot i).onTable = false)
    (hDir : (s.getRobot i).direction = .Invalid) :
    ((robotRespond s i v args).1.getRobot i).onTable = false ∧
    ((robotRespond s i v args).1.getRobot i).direction = .Invalid := by
  rcases hv with h | h | h | h | h <;> subst h
  · have hm : (moveRobot s i).1 = s := by simp [moveRobot, hOff]
    simp only [robotRespond, hm]
    exact ⟨hOff, hDir⟩
  · have hl : (leftRobot s i).1 = s := by simp [leftRobot, hOff]
    simp only [robotRespond, hl]
    exact ⟨hOff, hDir⟩
  · have hr : (rightRobot s i).1 = s := by simp [rightRobot, hOff]
    simp only [robotRespond, hr]
    exact ⟨hOff, hDir⟩
  · simp only [robotRespond, reportRobot_fst]
    exact ⟨hOff, hDir⟩
  · exact removeRobot_getRobot s i

lemma respondSeq_keeps_removed (s : GameState) (i : Nat)
    (ops : List (Verb × List String))
    (hops : ∀ p ∈ ops, p.1 = Verb.move ∨ p.1 = .left ∨ p.1 = .right ∨
      p.1 = .report ∨ p.1 = .remove)
    (hOff : (s.getRobot i).onTable = false)
    (hDir : (s.getRobot i).direction = .Invalid) :
    ((respondSeq s i ops).getRobot i).onTable = false ∧
    ((respondSeq s i ops).getRobot i).direction = .Invalid := by
  induction ops generalizing s with
  | nil => exact ⟨hOff, hDir⟩
  | cons p rest ih =>
      have hp := hops p (List.mem_cons_self _ _)
      have step := nonPlace_keeps_removed s i p.1 p.2 hp hOff hDir
      exact ih _ (fun q hq => hops q (List.mem_cons_of_mem _ hq)) step.1 step.2

/-- C9. `Robot::remove()` unconditionally (no constraint check, no message)
puts the robot off the table with facing reset to Invalid, and that state is
absorbing under the non-place verbs: dispatching any sequence drawn from
move/left/right/report/remove to the robot afterwards leaves it off-table
with Invalid facing — in particular remove is idempotent. -/
theorem remove_unconditional_and_absorbing (s : GameState) (i : Nat) :
    (((removeRobot s i).1.getRobot i).onTable = false ∧
     ((removeRobot s i).1.getRobot i).direction = .Invalid ∧
     (removeRobot s i).2 = []) ∧
    (removeRobot (removeRobot s i).1 i).1 = (removeRobot s i).1 ∧
    ∀ ops : List (Verb × List String),
      (∀ p ∈ ops, p.1 = Verb.move ∨ p.1 = .left ∨ p.1 = .right ∨
        p.1 = .report ∨ p.1 = .remove) →
      ((respondSeq (removeRobot s i).1 i ops).getRobot i).onTable = false ∧
      ((respondSeq (removeRobot s i).1 i ops).getRobot i).direction = .Invalid := by
  refine ⟨⟨(removeRobot_getRobot s i).1, (removeRobot_getRobot s i).2, rfl⟩,
    removeRobot_idem s i, fun ops hops => ?_⟩
  exact respondSeq_keeps_removed _ i ops hops
    (removeRobot_getRobot s i).1 (removeRobot_getRobot s i).2

end GoodRobot
